import Mathlib

/-!
Verification of the tinywasm/wasi module host against its specification.

Shallow embedding of the Go sources:
- middleware.go : Rule, parseRule, Matches, applyPipeline
- module.go     : Drain, Close, Handle
- wasi.go       : swapModule, handleMiddlewareDispatch
- host bridge   : subscribe host function and the bus-delivery callback

All definitions are translated from the Go source; functions whose behaviour
depends on the guest or on the outside world (guest exports, memory reads,
malloc results) take that behaviour as an explicit argument.
-/

set_option autoImplicit false

namespace Wasi

/-! ## String helpers

Go strings are modelled as character lists so that every operation computes
by kernel reduction. -/

/-- A Go string, modelled as its character list. -/
abbrev Str := List Char

/-- strings.HasPrefix on character lists. -/
def hasPreL : Str → Str → Bool
  | _, [] => true
  | [], _ :: _ => false
  | c :: cs, p :: ps => c = p && hasPreL cs ps

/-- strings.TrimPrefix on character lists: drop the prefix when present,
otherwise return the input unchanged. -/
def trimPreL (s pre : Str) : Str :=
  if hasPreL s pre then s.drop pre.length else s

/-- The whitespace characters strings.TrimSpace removes (ASCII fragment). -/
def isSpaceChar (c : Char) : Bool :=
  c = ' ' || c = '\t' || c = '\n' || c = '\r'

/-- strings.TrimSpace on character lists: drop whitespace from both ends. -/
def trimW (s : Str) : Str :=
  ((s.dropWhile isSpaceChar).reverse.dropWhile isSpaceChar).reverse

/-! ## middleware.go : Rule, parseRule, Matches -/

/-- Rule from middleware.go (lines 11-15): which routes a middleware applies to. -/
structure Rule where
  All : Bool := false
  Only : List Str := []
  Except : List Str := []
deriving DecidableEq, Repr

/-- The loop in the All branch of Matches (middleware.go 54-59):
for each ex in Except, if ex == routeID return false; afterwards return true. -/
def exceptLoop : List Str → Str → Bool
  | [], _ => true
  | ex :: rest, routeID => if ex = routeID then false else exceptLoop rest routeID

/-- The loop in the non-All branch of Matches (middleware.go 62-67):
for each o in Only, if o == routeID return true; afterwards return false. -/
def onlyLoop : List Str → Str → Bool
  | [], _ => false
  | o :: rest, routeID => if o = routeID then true else onlyLoop rest routeID

/-- MiddlewareModule.Matches (middleware.go 52-68). -/
def Matches (rule : Rule) (routeID : Str) : Bool :=
  if rule.All then exceptLoop rule.Except routeID
  else onlyLoop rule.Only routeID

/-- The loop body of parseRule (middleware.go 30-41), threading the rule being
built through the remaining comma-separated parts. -/
def parseRuleLoop : List Str → Rule → Rule
  | [], r => r
  | p :: parts, r =>
    let q := trimW p
    if q = [] then parseRuleLoop parts r
    else if hasPreL q ['-'] then
      parseRuleLoop parts { r with All := true, Except := r.Except ++ [q.drop 1] }
    else
      parseRuleLoop parts { r with Only := r.Only ++ [q] }

/-- parseRule (middleware.go 22-43).  strings.Split on a comma is
List.splitOn of the comma character. -/
def parseRule (content : Str) : Rule :=
  let c := trimW content
  if c = ['*'] || c = [] then { All := true }
  else parseRuleLoop (List.splitOn ',' c) {}

/-- The non-empty trimmed tokens among a list of raw comma-separated parts. -/
def ruleTokensL (parts : List Str) : List Str :=
  (parts.map trimW).filter (fun t => t ≠ [])

/-- The non-empty trimmed tokens of a rule body, as described by the spec. -/
def ruleTokens (c : Str) : List Str :=
  ruleTokensL (List.splitOn ',' c)

/-- Modelled from the spec wording of the rule grammar, for comparison with
parseRule: a trimmed star or empty string gives All; otherwise every non-empty
trimmed token is either a bare name (collected in Only) or a dash-led name
(setting All and collected, without the dash, in Except). -/
def parseRuleSpec (content : Str) : Rule :=
  let c := trimW content
  if c = ['*'] || c = [] then { All := true }
  else
    { All := (ruleTokens c).any (fun t => hasPreL t ['-'])
      Only := (ruleTokens c).filter (fun t => !hasPreL t ['-'])
      Except := ((ruleTokens c).filter (fun t => hasPreL t ['-'])).map (fun t => t.drop 1) }

/-! ### Lemmas about Matches and parseRule -/

lemma exceptLoop_eq_true_iff (l : List Str) (r : Str) :
    exceptLoop l r = true ↔ r ∉ l := by
  induction l with
  | nil => simp [exceptLoop]
  | cons x xs ih =>
    by_cases hx : x = r
    · simp [exceptLoop, hx]
    · simp [exceptLoop, hx, ih, Ne.symm hx]

lemma onlyLoop_eq_true_iff (l : List Str) (r : Str) :
    onlyLoop l r = true ↔ r ∈ l := by
  induction l with
  | nil => simp [onlyLoop]
  | cons x xs ih =>
    by_cases hx : x = r
    · simp [onlyLoop, hx]
    · simp [onlyLoop, hx, ih, Ne.symm hx]

lemma parseRuleLoop_spec (parts : List Str) (r : Rule) :
    parseRuleLoop parts r =
      { All := r.All || (ruleTokensL parts).any (fun t => hasPreL t ['-'])
        Only := r.Only ++ (ruleTokensL parts).filter (fun t => !hasPreL t ['-'])
        Except := r.Except ++
          ((ruleTokensL parts).filter (fun t => hasPreL t ['-'])).map (fun t => t.drop 1) } := by
  induction parts generalizing r with
  | nil => simp [parseRuleLoop, ruleTokensL]
  | cons p parts ih =>
    by_cases h0 : trimW p = []
    · simp [parseRuleLoop, h0, ih, ruleTokensL]
    · by_cases hd : hasPreL (trimW p) ['-'] = true
      · simp [parseRuleLoop, h0, hd, ih, ruleTokensL, List.filter_cons, List.any_cons]
      · simp [parseRuleLoop, h0, hd, ih, ruleTokensL, List.filter_cons, List.any_cons]

/-! ## module.go : Drain, Close, Handle -/

/-- One result of calling the guest drain export (module.go 77-86):
the call may error, return no results, or return a u32 sleep hint. -/
inductive CallResult where
  | err (e : Nat)
  | empty
  | hint (ms : Nat)
deriving DecidableEq, Repr

/-- The drain loop of Module.Drain (module.go 75-97).  The guest behaviour is
an explicit stream: calls i is what the i-th call of the drain export returns.
elapsed models time.Since(start) in milliseconds: the loop sleeps ms
milliseconds before re-calling, so elapsed grows by the hint each round.
Returns the error of a failing call, or none for a normal return. -/
def drainLoop (calls : Nat → CallResult) (timeout : Nat) (i elapsed : Nat) : Option Nat :=
  match calls i with
  | CallResult.err e => some e
  | CallResult.empty => none
  | CallResult.hint ms =>
    if _hms : ms = 0 then none
    else if _ht : elapsed > timeout then none
    else drainLoop calls timeout (i + 1) (elapsed + ms)
termination_by timeout + 1 - elapsed
decreasing_by simp_wf; omega

/-- Module.Drain (module.go 70-99): immediate nil when the drain export is
absent, otherwise the drain loop from a fresh start time. -/
def Drain (hasDrainFn : Bool) (calls : Nat → CallResult) (timeout : Nat) : Option Nat :=
  if hasDrainFn then drainLoop calls timeout 0 0 else none

/-- An observable action of Module.Close. -/
inductive CloseAction where
  | cleanup (id : Nat)
  | closeRuntime
deriving DecidableEq, Repr

/-- The cleanup loop of Module.Close (module.go 111-113): for each cleanup in
m.cleanups, in the order the list holds them, run it. -/
def runCleanupsLoop : List Nat → List CloseAction
  | [] => []
  | c :: rest => CloseAction.cleanup c :: runCleanupsLoop rest

/-- Module.Close (module.go 109-115) as the trace of actions it performs:
the cleanup loop, then closing the runtime. -/
def closeTrace (cleanups : List Nat) : List CloseAction :=
  runCleanupsLoop cleanups ++ [CloseAction.closeRuntime]

/-- Module.Handle (module.go 119-131).  The guest call is an explicit
argument: call reqPtr reqLen errs, returns no results, or returns a value. -/
def ModuleHandle (hasHandleFn : Bool) (call : Nat → Nat → Except Nat (Option Nat))
    (reqPtr reqLen : Nat) : Except Nat Nat :=
  if hasHandleFn = false then Except.ok 0
  else
    match call reqPtr reqLen with
    | Except.error e => Except.error e
    | Except.ok none => Except.ok 0
    | Except.ok (some v) => Except.ok v

/-! ## Host bridge : the subscribe host function and the delivery callback -/

/-- Which of the exports the guest module provides that the subscribe host
function looks up. -/
structure GuestExports where
  onMessage : Bool
  mallocE : Bool
  allocE : Bool
deriving DecidableEq, Repr

/-- The outcome of the subscribe host function (host bridge, subscribe):
a missing module context or a missing on_message export is logged and the
function returns without registering anything; otherwise bus.Subscribe is
called and the canceller appended to the module cleanups.  allocAvailable
records whether malloc, or the alloc fallback, resolved. -/
inductive SubscribeOutcome where
  | errNoModuleCtx
  | errNoOnMessage
  | registered (allocAvailable : Bool)
deriving DecidableEq, Repr

/-- True exactly when the outcome left an active subscription behind. -/
def SubscribeOutcome.isActive : SubscribeOutcome → Bool
  | SubscribeOutcome.registered _ => true
  | _ => false

/-- The subscribe host function (host bridge, lines 41-98): check the module
context, check on_message, resolve malloc with alloc as fallback, register. -/
def subscribeHost (hasModuleCtx : Bool) (e : GuestExports) : SubscribeOutcome :=
  if hasModuleCtx = false then SubscribeOutcome.errNoModuleCtx
  else if e.onMessage = false then SubscribeOutcome.errNoOnMessage
  else SubscribeOutcome.registered (e.mallocE || e.allocE)

/-- Outcome of one bus delivery into a subscriber guest. -/
inductive DeliverOutcome where
  | droppedNoAlloc
  | droppedMallocErr
  | droppedWriteFail
  | deliveredErr (e : Nat)
  | delivered
deriving DecidableEq, Repr

/-- What the guest and its memory do during one delivery: the result of the
malloc call (none models a call error), whether the memory write succeeds,
and whether on_message errors. -/
structure DeliverEnv where
  mallocRes : Option Nat
  writeOk : Bool
  onMessageErr : Option Nat
deriving DecidableEq, Repr

/-- The bus-delivery callback registered by subscribe (host bridge, 64-93).
The second component records whether the callback cancels the subscription;
the source callback has no cancellation path, so it is false on every branch. -/
def deliverMessage (allocAvailable : Bool) (env : DeliverEnv) : DeliverOutcome × Bool :=
  if allocAvailable = false then (DeliverOutcome.droppedNoAlloc, false)
  else
    match env.mallocRes with
    | none => (DeliverOutcome.droppedMallocErr, false)
    | some _ =>
      if env.writeOk = false then (DeliverOutcome.droppedWriteFail, false)
      else
        match env.onMessageErr with
        | some e => (DeliverOutcome.deliveredErr e, false)
        | none => (DeliverOutcome.delivered, false)

/-! ## wasi.go : swapModule -/

/-- The server state swapModule touches: the endpoint map (modelled as an
association list) and the ordered middleware list of (name, module, rule). -/
structure ServerState where
  modules : List (String × Nat)
  middlewares : List (String × Nat × Rule)
deriving DecidableEq, Repr

/-- The outside-world outcomes a swapModule call observes: the Load result
(none models a load error, some n the new module), the Init result, and the
rule file lookup (loadRuleFromSourceDir). -/
structure SwapEnv where
  loadResult : Option Nat
  initOk : Bool
  ruleFile : Option Rule
deriving DecidableEq, Repr

/-- What a swapModule call did: the resulting state, which modules it drained
and closed (in order), and whether it returned an error. -/
structure SwapResult where
  state : ServerState
  drained : List Nat
  closed : List Nat
  isErr : Bool
deriving DecidableEq, Repr

/-- Go map read modules[name]. -/
def lookupMod : List (String × Nat) → String → Option Nat
  | [], _ => none
  | (k, v) :: rest, n => if k = n then some v else lookupMod rest n

/-- Go map write modules[name] = v. -/
def insertMod : List (String × Nat) → String → Nat → List (String × Nat)
  | [], n, v => [(n, v)]
  | (k, w) :: rest, n, v =>
    if k = n then (n, v) :: rest else (k, w) :: insertMod rest n v

/-- The find-and-replace-or-append loop over the middleware list
(wasi.go 445-457).  Returns the new list and the replaced module, if any. -/
def replaceMw : List (String × Nat × Rule) → String → Nat → Rule →
    List (String × Nat × Rule) × Option Nat
  | [], n, v, rl => ([(n, v, rl)], none)
  | (k, w, r0) :: rest, n, v, rl =>
    if k = n then ((n, v, rl) :: rest, some w)
    else
      let res := replaceMw rest n v rl
      ((k, w, r0) :: res.1, res.2)

/-- swapModule (wasi.go 410-473): Load, Init (closing the new module on
failure), classify via the rule file, swap the matching slot capturing the
old module, then drain and close the old module. -/
def swapModule (name : String) (env : SwapEnv) (st : ServerState) : SwapResult :=
  match env.loadResult with
  | none => { state := st, drained := [], closed := [], isErr := true }
  | some newMod =>
    if env.initOk = false then
      { state := st, drained := [], closed := [newMod], isErr := true }
    else
      match env.ruleFile with
      | some rl =>
        let res := replaceMw st.middlewares name newMod rl
        let st2 : ServerState := { st with middlewares := res.1 }
        match res.2 with
        | some o => { state := st2, drained := [o], closed := [o], isErr := false }
        | none => { state := st2, drained := [], closed := [], isErr := false }
      | none =>
        let oldMod := lookupMod st.modules name
        let st2 : ServerState := { st with modules := insertMod st.modules name newMod }
        match oldMod with
        | some o => { state := st2, drained := [o], closed := [o], isErr := false }
        | none => { state := st2, drained := [], closed := [], isErr := false }

/-! ## wasi.go : handleMiddlewareDispatch -/

/-- The observable outcome of the local callHandle helper (wasi.go 489-506)
for one module: an error, or a returned pointer (0 means pass-through). -/
inductive HandleOutcome where
  | err (e : Nat)
  | ret (p : Nat)
deriving DecidableEq, Repr

/-- A module as seen by the dispatcher: whether it exports handle, and what
its guest returns when called.  callHandle (wasi.go 489-506) returns (0, nil)
without touching the guest when the handle export is absent; the request
allocation it performs otherwise does not change the outcome shape. -/
structure ModuleH where
  hasHandleFn : Bool
  guest : HandleOutcome
deriving DecidableEq, Repr

/-- The callHandle helper of the dispatcher (wasi.go 489-506). -/
def callHandle (m : ModuleH) : HandleOutcome :=
  if m.hasHandleFn then m.guest else HandleOutcome.ret 0

/-- The middleware loop of the dispatcher (wasi.go 516-527): errors are
logged (collected in the first component) and the loop continues; the first
non-zero pointer short-circuits (second component). -/
def pipelineLoop : List HandleOutcome → List Nat × Option Nat
  | [] => ([], none)
  | HandleOutcome.err e :: rest =>
    ((e :: (pipelineLoop rest).1), (pipelineLoop rest).2)
  | HandleOutcome.ret p :: rest =>
    if p ≠ 0 then ([], some p) else pipelineLoop rest

/-- An HTTP response of the dispatcher. -/
inductive HttpResponse where
  | badRequest
  | notFound
  | internalError (e : Nat)
  | ok200 (body : List Nat)
  | noContent204
deriving DecidableEq, Repr

/-- The response-reading loop (wasi.go 553-559): read bytes one by one from
guest memory (mem a = none models a failed ReadByte at address a), stopping
at a read failure, at a NUL byte, or after the fuel (65536 in the source)
is exhausted. -/
def readRespLoop (mem : Nat → Option Nat) (p : Nat) : Nat → List Nat
  | 0 => []
  | n + 1 =>
    match mem p with
    | none => []
    | some b => if b = 0 then [] else b :: readRespLoop mem (p + 1) n

/-- Step 3 of the dispatcher (wasi.go 549-563): with a non-nil target module
and a non-zero result pointer, the body is read from the target memory;
otherwise the response is 204 No Content. -/
def respondStep (mem : Nat → Option Nat) (targetSome : Bool) (resultPtr : Nat) :
    HttpResponse :=
  if resultPtr ≠ 0 ∧ targetSome = true then
    HttpResponse.ok200 (readRespLoop mem resultPtr 65536)
  else HttpResponse.noContent204

/-- Steps 2 and 3 of the dispatcher (wasi.go 529-563), after the middleware
loop produced the logged errors and the optional short-circuit pointer:
consult the endpoint when no middleware short-circuited. -/
def dispatchFinish (mem : Nat → Option Nat) (logs : List Nat) (mwPtr : Option Nat)
    (endpoint : Option HandleOutcome) : List Nat × HttpResponse :=
  match mwPtr with
  | some p => (logs, respondStep mem true p)
  | none =>
    match endpoint with
    | none => (logs, HttpResponse.notFound)
    | some (HandleOutcome.err e) => (logs, HttpResponse.internalError e)
    | some (HandleOutcome.ret p) => (logs, respondStep mem true p)

/-- The dispatcher from the pipeline on: middleware loop then endpoint. -/
def dispatchAfterRoute (mem : Nat → Option Nat) (pipeline : List HandleOutcome)
    (endpoint : Option HandleOutcome) : List Nat × HttpResponse :=
  dispatchFinish mem (pipelineLoop pipeline).1 (pipelineLoop pipeline).2 endpoint

/-- Name extraction of the dispatcher (wasi.go 476-482): trim the leading
slash-m-slash, reject an empty remainder, cut at the first further slash
(strings.Index plus slice, equivalent to takeWhile for a one-character
separator). -/
def dispatchRoute (path : Str) : Option Str :=
  let name := trimPreL path ['/', 'm', '/']
  if name = [] then none
  else some (name.takeWhile (fun c => c ≠ '/'))

/-- The serialized request blob reqBody (wasi.go 486): METHOD, newline,
full original path, newline. -/
def requestBlob (method path : Str) : Str :=
  method ++ '\n' :: (path ++ ['\n'])

/-- applyPipeline (middleware.go 71-79) over dispatcher-level middleware
entries: keep, in order, the entries whose rule matches the route. -/
def applyPipelineM : Str → List (Rule × HandleOutcome) → List (Rule × HandleOutcome)
  | _, [] => []
  | route, mw :: rest =>
    if Matches mw.1 route then mw :: applyPipelineM route rest
    else applyPipelineM route rest

/-- handleMiddlewareDispatch (wasi.go 475-563) end to end: resolve the route
name, build the pipeline for it, and run pipeline then endpoint.  Endpoint
lookup s.modules[name] is the endpoints function.  The method only feeds the
request blob, which the abstract guest outcomes already account for. -/
def dispatchModel (_method path : Str) (mws : List (Rule × HandleOutcome))
    (endpoints : Str → Option HandleOutcome) (mem : Nat → Option Nat) :
    List Nat × HttpResponse :=
  match dispatchRoute path with
  | none => ([], HttpResponse.badRequest)
  | some name =>
    dispatchAfterRoute mem ((applyPipelineM name mws).map (fun mw => mw.2)) (endpoints name)

/-! ## Claim theorems -/

/-- C1: For every Rule R and route string r, Matches(r) returns: if R.All is
true, then true exactly when r is not a member of R.Except (the Only list is
ignored once All is true); otherwise, true exactly when r is a member of
R.Only. -/
theorem claim_c1_matches (rule : Rule) (r : Str) :
    (rule.All = true → (Matches rule r = true ↔ r ∉ rule.Except)) ∧
    (rule.All = false → (Matches rule r = true ↔ r ∈ rule.Only)) := by
  constructor
  · intro h
    simp [Matches, h, exceptLoop_eq_true_iff]
  · intro h
    simp [Matches, h, onlyLoop_eq_true_iff]

/-- Witness for C1 at two concrete rules, one with All set and one without. -/
theorem claim_c1_matches_witness :
    Matches { All := true, Only := ["users".toList], Except := ["admin".toList] }
      "admin".toList = false ∧
    (Matches { All := true, Only := ["users".toList], Except := ["admin".toList] }
        "admin".toList = true ↔
      "admin".toList ∉
        ({ All := true, Only := ["users".toList], Except := ["admin".toList] } : Rule).Except) ∧
    (Matches { All := false, Only := ["users".toList], Except := [] } "users".toList = true ↔
      "users".toList ∈
        ({ All := false, Only := ["users".toList], Except := [] } : Rule).Only) :=
  ⟨by decide,
   (claim_c1_matches { All := true, Only := ["users".toList], Except := ["admin".toList] }
     "admin".toList).1 rfl,
   (claim_c1_matches { All := false, Only := ["users".toList], Except := [] }
     "users".toList).2 rfl⟩

/-- C6: parseRule maps a trimmed star or empty string to All; otherwise it
splits on commas and, per non-empty trimmed token, appends a bare name to
Only, and for a dash-led token sets All and appends the remainder to Except;
in particular parseRule of "users,-admin" yields Only users, All set, Except
admin.  Stated as agreement with parseRuleSpec, which is written from the
spec wording. -/
theorem claim_c6_parse_rule :
    (∀ s : Str, parseRule s = parseRuleSpec s) ∧
    parseRule "users,-admin".toList =
      { All := true, Only := ["users".toList], Except := ["admin".toList] } := by
  constructor
  · intro s
    unfold parseRule parseRuleSpec
    by_cases h1 : trimW s = ['*']
    · simp [h1]
    · by_cases h2 : trimW s = []
      · simp [h2]
      · simp only [h1, h2]
        simp [parseRuleLoop_spec, ruleTokens]
  · decide

/-- C3 counterexample: with two cleanups registered in the order 1 then 2,
the Close trace is not the reverse-order trace the claim describes. -/
theorem claim_c3_counterexample :
    closeTrace [1, 2] ≠
      List.map CloseAction.cleanup (List.reverse [1, 2]) ++ [CloseAction.closeRuntime] := by
  decide

/-- C3 amended: Close runs the registered cleanup actions in registration
(forward) order, and only then destroys the runtime. -/
theorem claim_c3_close_order (cleanups : List Nat) :
    closeTrace cleanups =
      List.map CloseAction.cleanup cleanups ++ [CloseAction.closeRuntime] := by
  unfold closeTrace
  congr 1
  induction cleanups with
  | nil => rfl
  | cons c rest ih => simp [runCleanupsLoop, ih]

/-- C2: when Load succeeds but Init of the new module fails, the new module
is closed and swapModule returns in error without modifying the endpoint map
or the middleware list; the previously registered module for that name stays
reachable and is neither drained nor closed. -/
theorem claim_c2_init_failure (name : String) (env : SwapEnv) (st : ServerState)
    (n : Nat) (hload : env.loadResult = some n) (hinit : env.initOk = false) :
    swapModule name env st =
      { state := st, drained := [], closed := [n], isErr := true } ∧
    lookupMod (swapModule name env st).state.modules name = lookupMod st.modules name := by
  have h : swapModule name env st =
      { state := st, drained := [], closed := [n], isErr := true } := by
    unfold swapModule
    rw [hload]
    simp [hinit]
  exact ⟨h, by rw [h]⟩

/-- Witness for C2: a server holding endpoint module 3 under the swapped
name; Init of new module 7 fails. -/
theorem claim_c2_init_failure_witness :
    swapModule "users" ⟨some 7, false, none⟩ ⟨[("users", 3)], []⟩ =
      { state := ⟨[("users", 3)], []⟩, drained := [], closed := [7], isErr := true } ∧
    lookupMod (swapModule "users" ⟨some 7, false, none⟩ ⟨[("users", 3)], []⟩).state.modules
        "users" =
      lookupMod [("users", 3)] "users" :=
  claim_c2_init_failure "users" ⟨some 7, false, none⟩ ⟨[("users", 3)], []⟩ 7 rfl rfl

/-- C4 counterexample: with the on_message export absent, the subscribe host
function registers no subscription at all (so no subscription remains
active); and with malloc absent but the alloc fallback present, deliveries
are not dropped. -/
theorem claim_c4_counterexample :
    (subscribeHost true ⟨false, true, true⟩).isActive = false ∧
    subscribeHost true ⟨true, false, true⟩ = SubscribeOutcome.registered true ∧
    deliverMessage true ⟨some 5, true, none⟩ = (DeliverOutcome.delivered, false) := by
  decide

/-- C4 amended: with on_message present, subscribe registers a subscription
whose allocator is available exactly when malloc or the alloc fallback is
exported; with on_message absent, subscribe registers nothing; when no
allocator is available every delivery is silently dropped without cancelling
anything; a memory write failure aborts only that one delivery; and no
delivery ever cancels the subscription. -/
theorem claim_c4_subscribe_delivery :
    (∀ m a : Bool, subscribeHost true ⟨true, m, a⟩ = SubscribeOutcome.registered (m || a)) ∧
    (∀ m a : Bool, subscribeHost true ⟨false, m, a⟩ = SubscribeOutcome.errNoOnMessage) ∧
    (∀ env : DeliverEnv, deliverMessage false env = (DeliverOutcome.droppedNoAlloc, false)) ∧
    (∀ (p : Nat) (oe : Option Nat),
      deliverMessage true ⟨some p, false, oe⟩ = (DeliverOutcome.droppedWriteFail, false)) ∧
    (∀ (b : Bool) (env : DeliverEnv), (deliverMessage b env).2 = false) := by
  refine ⟨fun m a => rfl, fun m a => rfl, fun env => rfl, fun p oe => rfl, ?_⟩
  intro b env
  rcases env with ⟨mr, w, oe⟩
  cases b
  · rfl
  · cases mr with
    | none => rfl
    | some q => cases w <;> cases oe <;> rfl

/-! ### Lemmas about Drain -/

lemma drainLoop_hint (calls : Nat → CallResult) (timeout i elapsed ms : Nat)
    (h : calls i = CallResult.hint ms) :
    drainLoop calls timeout i elapsed =
      if ms = 0 then none
      else if elapsed > timeout then none
      else drainLoop calls timeout (i + 1) (elapsed + ms) := by
  rw [drainLoop, h]
  by_cases h0 : ms = 0
  · simp [h0]
  · by_cases ht : elapsed > timeout
    · simp [h0, ht]
    · simp [h0, ht]

lemma drainLoop_reaches_zero (calls : Nat → CallResult) (timeout k : Nat)
    (hpre : ∀ j, j < k → ∃ ms, calls j = CallResult.hint (ms + 1))
    (hk : calls k = CallResult.hint 0) :
    ∀ n i elapsed, k - i = n → i ≤ k → drainLoop calls timeout i elapsed = none := by
  intro n
  induction n with
  | zero =>
    intro i elapsed h0 hik
    have hik' : i = k := by omega
    subst hik'
    rw [drainLoop_hint calls timeout i elapsed 0 hk]
    simp
  | succ n ih =>
    intro i elapsed h0 hik
    have hlt : i < k := by omega
    obtain ⟨ms, hms⟩ := hpre i hlt
    rw [drainLoop_hint calls timeout i elapsed (ms + 1) hms]
    by_cases ht : elapsed > timeout
    · simp [ht]
    · simp only [Nat.succ_ne_zero, if_neg, ht, if_false]
      exact ih (i + 1) (elapsed + (ms + 1)) (by omega) (by omega)

lemma drainLoop_all_positive (calls : Nat → CallResult) (timeout : Nat)
    (hall : ∀ j, ∃ ms, calls j = CallResult.hint (ms + 1)) :
    ∀ f i elapsed, timeout + 1 - elapsed ≤ f → drainLoop calls timeout i elapsed = none := by
  intro f
  induction f with
  | zero =>
    intro i elapsed hf
    obtain ⟨ms, hms⟩ := hall i
    rw [drainLoop_hint calls timeout i elapsed (ms + 1) hms]
    have ht : elapsed > timeout := by omega
    simp [ht]
  | succ f ih =>
    intro i elapsed hf
    obtain ⟨ms, hms⟩ := hall i
    rw [drainLoop_hint calls timeout i elapsed (ms + 1) hms]
    by_cases ht : elapsed > timeout
    · simp [ht]
    · simp only [Nat.succ_ne_zero, if_neg, ht, if_false]
      exact ih (i + 1) (elapsed + (ms + 1)) (by omega)

/-- C5: Module.Drain terminates (it is a total function of the modelled guest
behaviour) and returns no error when: the drain export is absent; or the
guest drain reaches a call returning hint 0 after positive hints; or every
call returns a positive hint, in which case the wall-clock budget runs out
and the timeout is not reported as an error. -/
theorem claim_c5_drain (calls : Nat → CallResult) (timeout : Nat) :
    Drain false calls timeout = none ∧
    (∀ k, (∀ j, j < k → ∃ ms, calls j = CallResult.hint (ms + 1)) →
      calls k = CallResult.hint 0 → Drain true calls timeout = none) ∧
    ((∀ j, ∃ ms, calls j = CallResult.hint (ms + 1)) → Drain true calls timeout = none) := by
  refine ⟨rfl, ?_, ?_⟩
  · intro k hpre hk
    show drainLoop calls timeout 0 0 = none
    exact drainLoop_reaches_zero calls timeout k hpre hk k 0 0 (by omega) (by omega)
  · intro hall
    show drainLoop calls timeout 0 0 = none
    exact drainLoop_all_positive calls timeout hall (timeout + 1) 0 0 (by omega)

/-- Witness for C5: a guest whose drain returns hint 1 twice and then 0, and
a guest whose drain always returns hint 1, both against budget 5; and an
absent drain export. -/
theorem claim_c5_drain_witness :
    Drain false (fun _ => CallResult.hint 1) 5 = none ∧
    (∀ j, j < 2 → ∃ ms,
      (fun n => if n < 2 then CallResult.hint 1 else CallResult.hint 0) j =
        CallResult.hint (ms + 1)) ∧
    (fun n => if n < 2 then CallResult.hint 1 else CallResult.hint 0) 2 = CallResult.hint 0 ∧
    Drain true (fun n => if n < 2 then CallResult.hint 1 else CallResult.hint 0) 5 = none ∧
    (∀ j : Nat, ∃ ms, (fun _ => CallResult.hint 1) j = CallResult.hint (ms + 1)) ∧
    Drain true (fun _ => CallResult.hint 1) 5 = none := by
  have h1 : ∀ j, j < 2 → ∃ ms,
      (fun n => if n < 2 then CallResult.hint 1 else CallResult.hint 0) j =
        CallResult.hint (ms + 1) := by
    intro j hj
    exact ⟨0, by simp [hj]⟩
  have h2 : (fun n => if n < 2 then CallResult.hint 1 else CallResult.hint 0) 2 =
      CallResult.hint 0 := by simp
  have h3 : ∀ j : Nat, ∃ ms, (fun _ => CallResult.hint 1) j = CallResult.hint (ms + 1) :=
    fun j => ⟨0, rfl⟩
  exact ⟨(claim_c5_drain (fun _ => CallResult.hint 1) 5).1, h1, h2,
    (claim_c5_drain _ 5).2.1 2 h1 h2, h3, (claim_c5_drain _ 5).2.2 h3⟩

/-! ### Lemmas about the response-reading loop -/

lemma range_map_shift (g : Nat → Nat) (p n : Nat) :
    (List.range (n + 1)).map (fun i => g (p + i)) =
      g p :: (List.range n).map (fun i => g ((p + 1) + i)) := by
  rw [List.range_succ_eq_map, List.map_cons, List.map_map]
  have hfun : ((fun i => g (p + i)) ∘ Nat.succ) = fun i => g ((p + 1) + i) := by
    funext i
    simp only [Function.comp]
    congr 1
    omega
  rw [hfun]
  simp

lemma readRespLoop_all (mem : Nat → Option Nat) (g : Nat → Nat) :
    ∀ n p, (∀ a, p ≤ a → a < p + n → mem a = some (g a) ∧ g a ≠ 0) →
      readRespLoop mem p n = (List.range n).map (fun i => g (p + i)) := by
  intro n
  induction n with
  | zero => intro p _; simp [readRespLoop]
  | succ n ih =>
    intro p h
    have hp := h p (le_refl p) (by omega)
    simp only [readRespLoop, hp.1]
    rw [if_neg hp.2]
    rw [ih (p + 1) (fun a ha1 ha2 => h a (by omega) (by omega))]
    rw [range_map_shift]

lemma readRespLoop_nul (mem : Nat → Option Nat) (g : Nat → Nat) :
    ∀ k n p, k < n →
      (∀ a, p ≤ a → a < p + k → mem a = some (g a) ∧ g a ≠ 0) →
      mem (p + k) = some 0 →
      readRespLoop mem p n = (List.range k).map (fun i => g (p + i)) := by
  intro k
  induction k with
  | zero =>
    intro n p hk h h0
    cases n with
    | zero => omega
    | succ n =>
      rw [Nat.add_zero] at h0
      simp [readRespLoop, h0]
  | succ k ih =>
    intro n p hk h h0
    cases n with
    | zero => omega
    | succ n =>
      have hp := h p (le_refl p) (by omega)
      simp only [readRespLoop, hp.1]
      rw [if_neg hp.2]
      have h0' : mem ((p + 1) + k) = some 0 := by
        have he : (p + 1) + k = p + (k + 1) := by omega
        rw [he]
        exact h0
      rw [ih n (p + 1) (by omega) (fun a ha1 ha2 => h a (by omega) (by omega)) h0']
      rw [range_map_shift]

/-- C7: in the dispatch response step, with a non-nil target module and a
non-zero pointer, the body is the byte sequence read from the module memory
from the pointer on, ending before the first NUL byte, and truncated at
65536 bytes when no NUL or read failure occurs earlier; otherwise (zero
pointer or nil module) the response is 204 No Content. -/
theorem claim_c7_response (mem : Nat → Option Nat) (g : Nat → Nat) (p : Nat) :
    (∀ k, k < 65536 → p ≠ 0 →
      (∀ a, p ≤ a → a < p + k → mem a = some (g a) ∧ g a ≠ 0) →
      mem (p + k) = some 0 →
      respondStep mem true p = HttpResponse.ok200 ((List.range k).map (fun i => g (p + i)))) ∧
    (p ≠ 0 → (∀ a, p ≤ a → a < p + 65536 → mem a = some (g a) ∧ g a ≠ 0) →
      respondStep mem true p =
        HttpResponse.ok200 ((List.range 65536).map (fun i => g (p + i)))) ∧
    respondStep mem true 0 = HttpResponse.noContent204 ∧
    respondStep mem false p = HttpResponse.noContent204 := by
  refine ⟨?_, ?_, by simp [respondStep], by simp [respondStep]⟩
  · intro k hk hp h h0
    unfold respondStep
    rw [if_pos ⟨hp, rfl⟩]
    rw [readRespLoop_nul mem g k 65536 p hk h h0]
  · intro hp h
    unfold respondStep
    rw [if_pos ⟨hp, rfl⟩]
    rw [readRespLoop_all mem g 65536 p h]

/-- Witness for C7: a memory holding byte 9 at addresses 5 and 6 and a NUL at
address 7, read from pointer 5; and an all-ones memory with no NUL, read from
pointer 5, truncated at 65536. -/
theorem claim_c7_response_witness :
    ((2 : Nat) < 65536 ∧ (5 : Nat) ≠ 0 ∧
      (∀ a, 5 ≤ a → a < 5 + 2 →
        (fun x => if x = 7 then some 0 else some 9) a = some ((fun _ => 9) a) ∧
          (fun _ => (9 : Nat)) a ≠ 0) ∧
      (fun x => if x = 7 then some 0 else some 9) (5 + 2) = some 0 ∧
      respondStep (fun x => if x = 7 then some 0 else some 9) true 5 =
        HttpResponse.ok200 ((List.range 2).map (fun i => (fun _ => 9) (5 + i)))) ∧
    ((∀ a, 5 ≤ a → a < 5 + 65536 →
        (fun _ => some 1) a = some ((fun _ => 1) a) ∧ (fun _ => (1 : Nat)) a ≠ 0) ∧
      respondStep (fun _ => some 1) true 5 =
        HttpResponse.ok200 ((List.range 65536).map (fun i => (fun _ => 1) (5 + i)))) := by
  have hmem : ∀ a, 5 ≤ a → a < 5 + 2 →
      (fun x => if x = 7 then some 0 else some 9) a = some ((fun _ => 9) a) ∧
        (fun _ => (9 : Nat)) a ≠ 0 := by
    intro a h1 h2
    have : a = 5 ∨ a = 6 := by omega
    rcases this with rfl | rfl <;> exact ⟨rfl, by decide⟩
  have hones : ∀ a, 5 ≤ a → a < 5 + 65536 →
      (fun _ => some 1) a = some ((fun _ => 1) a) ∧ (fun _ => (1 : Nat)) a ≠ 0 := by
    intro a _ _
    exact ⟨rfl, one_ne_zero⟩
  refine ⟨⟨by decide, by decide, hmem, by decide, ?_⟩, ⟨hones, ?_⟩⟩
  · exact (claim_c7_response (fun x => if x = 7 then some 0 else some 9) (fun _ => 9) 5).1
      2 (by decide) (by decide) hmem (by decide)
  · exact (claim_c7_response (fun _ => some 1) (fun _ => 1) 5).2.1 (by decide) hones

/-! ### Lemmas about the middleware pipeline loop -/

lemma dispatchFinish_fst (mem : Nat → Option Nat) (logs : List Nat) (mwPtr : Option Nat)
    (ep : Option HandleOutcome) : (dispatchFinish mem logs mwPtr ep).1 = logs := by
  cases mwPtr with
  | some p => rfl
  | none =>
    cases ep with
    | none => rfl
    | some h => cases h <;> rfl

lemma dispatchFinish_snd_logs (mem : Nat → Option Nat) (logs logs' : List Nat)
    (mwPtr : Option Nat) (ep : Option HandleOutcome) :
    (dispatchFinish mem logs mwPtr ep).2 = (dispatchFinish mem logs' mwPtr ep).2 := by
  cases mwPtr with
  | some p => rfl
  | none =>
    cases ep with
    | none => rfl
    | some h => cases h <;> rfl

lemma pipelineLoop_err_skip (e : Nat) :
    ∀ pre post, (pipelineLoop (pre ++ HandleOutcome.err e :: post)).2 =
      (pipelineLoop (pre ++ post)).2 := by
  intro pre
  induction pre with
  | nil => intro post; simp [pipelineLoop]
  | cons y pre ih =>
    intro post
    cases y with
    | err e' => simp [pipelineLoop, ih]
    | ret p => by_cases hp : p ≠ 0 <;> simp [pipelineLoop, hp, ih]

lemma pipelineLoop_ret0_skip :
    ∀ pre post, (pipelineLoop (pre ++ HandleOutcome.ret 0 :: post)).2 =
      (pipelineLoop (pre ++ post)).2 := by
  intro pre
  induction pre with
  | nil => intro post; simp [pipelineLoop]
  | cons y pre ih =>
    intro post
    cases y with
    | err e' => simp [pipelineLoop, ih]
    | ret p => by_cases hp : p ≠ 0 <;> simp [pipelineLoop, hp, ih]

lemma pipelineLoop_err_logged (e : Nat) :
    ∀ pre, (pipelineLoop pre).2 = none →
      ∀ post, e ∈ (pipelineLoop (pre ++ HandleOutcome.err e :: post)).1 := by
  intro pre
  induction pre with
  | nil => intro _ post; simp [pipelineLoop]
  | cons y pre ih =>
    intro h post
    cases y with
    | err e' =>
      have h2 : (pipelineLoop pre).2 = none := by simpa [pipelineLoop] using h
      simp only [List.cons_append, pipelineLoop, List.mem_cons]
      exact Or.inr (ih h2 post)
    | ret p =>
      by_cases hp : p = 0
      · subst hp
        have h2 : (pipelineLoop pre).2 = none := by simpa [pipelineLoop] using h
        simpa [pipelineLoop] using ih h2 post
      · exfalso
        simp [pipelineLoop, hp] at h

/-- C8: during dispatch, an erroring middleware is logged and treated as
pass-through (it never changes the response and never short-circuits the
pipeline), whereas an erroring endpoint module yields HTTP 500. -/
theorem claim_c8_error_handling :
    (∀ (mem : Nat → Option Nat) pre (e : Nat) post ep,
      (dispatchAfterRoute mem (pre ++ HandleOutcome.err e :: post) ep).2 =
        (dispatchAfterRoute mem (pre ++ post) ep).2) ∧
    (∀ (mem : Nat → Option Nat) pre (e : Nat) post ep, (pipelineLoop pre).2 = none →
      e ∈ (dispatchAfterRoute mem (pre ++ HandleOutcome.err e :: post) ep).1) ∧
    (∀ (mem : Nat → Option Nat) pipeline (e : Nat), (pipelineLoop pipeline).2 = none →
      (dispatchAfterRoute mem pipeline (some (HandleOutcome.err e))).2 =
        HttpResponse.internalError e) := by
  refine ⟨?_, ?_, ?_⟩
  · intro mem pre e post ep
    unfold dispatchAfterRoute
    rw [pipelineLoop_err_skip e pre post]
    exact dispatchFinish_snd_logs mem _ _ _ ep
  · intro mem pre e post ep h
    unfold dispatchAfterRoute
    rw [dispatchFinish_fst]
    exact pipelineLoop_err_logged e pre h post
  · intro mem pipeline e h
    unfold dispatchAfterRoute
    rw [h]
    rfl

/-- Witness for C8: an empty pipeline with an erroring middleware appended,
and an erroring endpoint behind an empty pipeline. -/
theorem claim_c8_error_handling_witness :
    (pipelineLoop ([] : List HandleOutcome)).2 = none ∧
    (dispatchAfterRoute (fun _ => none) ([] ++ HandleOutcome.err 7 :: []) none).2 =
      (dispatchAfterRoute (fun _ => none) ([] ++ []) none).2 ∧
    7 ∈ (dispatchAfterRoute (fun _ => none) ([] ++ HandleOutcome.err 7 :: []) none).1 ∧
    (dispatchAfterRoute (fun _ => none) [] (some (HandleOutcome.err 3))).2 =
      HttpResponse.internalError 3 :=
  ⟨rfl, claim_c8_error_handling.1 (fun _ => none) [] 7 [] none,
   claim_c8_error_handling.2.1 (fun _ => none) [] 7 [] none rfl,
   claim_c8_error_handling.2.2 (fun _ => none) [] 3 rfl⟩

/-- C10: a module whose guest exports no handle function returns pointer 0
and no error from Module.Handle for every input; the dispatcher callHandle
helper returns pointer 0 for it; it never short-circuits the middleware
pipeline; and as an endpoint behind a non-short-circuiting pipeline it makes
the dispatch respond 204 No Content. -/
theorem claim_c10_no_handle :
    (∀ (call : Nat → Nat → Except Nat (Option Nat)) (reqPtr reqLen : Nat),
      ModuleHandle false call reqPtr reqLen = Except.ok 0) ∧
    (∀ g : HandleOutcome, callHandle ⟨false, g⟩ = HandleOutcome.ret 0) ∧
    (∀ (mem : Nat → Option Nat) pre post ep,
      (dispatchAfterRoute mem (pre ++ HandleOutcome.ret 0 :: post) ep).2 =
        (dispatchAfterRoute mem (pre ++ post) ep).2) ∧
    (∀ (mem : Nat → Option Nat) pipeline, (pipelineLoop pipeline).2 = none →
      (dispatchAfterRoute mem pipeline (some (HandleOutcome.ret 0))).2 =
        HttpResponse.noContent204) := by
  refine ⟨fun call reqPtr reqLen => rfl, fun g => rfl, ?_, ?_⟩
  · intro mem pre post ep
    unfold dispatchAfterRoute
    rw [pipelineLoop_ret0_skip pre post]
    exact dispatchFinish_snd_logs mem _ _ _ ep
  · intro mem pipeline h
    unfold dispatchAfterRoute
    rw [h]
    simp [dispatchFinish, respondStep]

/-- Witness for C10: a handle-less module inserted into an empty pipeline and
used as the endpoint. -/
theorem claim_c10_no_handle_witness :
    (pipelineLoop ([] : List HandleOutcome)).2 = none ∧
    (dispatchAfterRoute (fun _ => none) ([] ++ HandleOutcome.ret 0 :: []) none).2 =
      (dispatchAfterRoute (fun _ => none) ([] ++ []) none).2 ∧
    (dispatchAfterRoute (fun _ => none) [] (some (HandleOutcome.ret 0))).2 =
      HttpResponse.noContent204 :=
  ⟨rfl, claim_c10_no_handle.2.2.1 (fun _ => none) [] [] none,
   claim_c10_no_handle.2.2.2 (fun _ => none) [] rfl⟩

/-! ### Lemmas about route-name extraction -/

lemma takeWhile_no_slash (b : Str) :
    ∀ a : Str, (∀ c ∈ a, c ≠ '/') →
      (a ++ '/' :: b).takeWhile (fun c => c ≠ '/') = a := by
  intro a
  induction a with
  | nil => intro _; simp [List.takeWhile]
  | cons c a ih =>
    intro h
    have hc : c ≠ '/' := h c (by simp)
    have hc' : (fun x => decide (x ≠ '/')) c = true := by simp [hc]
    rw [List.cons_append, List.takeWhile_cons, if_pos hc',
      ih (fun x hx => h x (by simp [hx]))]

lemma dispatchRoute_extra (a b : Str) (_ha : a ≠ []) (hs : ∀ c ∈ a, c ≠ '/') :
    dispatchRoute ('/' :: 'm' :: '/' :: (a ++ '/' :: b)) = some a := by
  have hpre : hasPreL ('/' :: 'm' :: '/' :: (a ++ '/' :: b)) ['/', 'm', '/'] = true := by
    simp [hasPreL]
  unfold dispatchRoute trimPreL
  rw [if_pos hpre]
  simp only [List.length_cons, List.length_nil, List.drop_succ_cons, List.drop_zero]
  rw [if_neg (by simp)]
  rw [takeWhile_no_slash b a hs]

/-- C9: for a request path of the shape slash-m-slash name slash extra, the
dispatcher uses only the text before the first further slash as the module
name (so the middleware pipeline and the endpoint lookup are exactly those
of that name), while the serialized request blob still carries the full
original path including the extra segments. -/
theorem claim_c9_path_extra_segments (a b method : Str)
    (mws : List (Rule × HandleOutcome)) (endpoints : Str → Option HandleOutcome)
    (mem : Nat → Option Nat) (ha : a ≠ []) (hs : ∀ c ∈ a, c ≠ '/') :
    dispatchRoute ('/' :: 'm' :: '/' :: (a ++ '/' :: b)) = some a ∧
    dispatchModel method ('/' :: 'm' :: '/' :: (a ++ '/' :: b)) mws endpoints mem =
      dispatchAfterRoute mem ((applyPipelineM a mws).map (fun mw => mw.2)) (endpoints a) ∧
    (∃ u v, requestBlob method ('/' :: 'm' :: '/' :: (a ++ '/' :: b)) =
      u ++ ('/' :: 'm' :: '/' :: (a ++ '/' :: b)) ++ v) := by
  refine ⟨dispatchRoute_extra a b ha hs, ?_, ?_⟩
  · unfold dispatchModel
    rw [dispatchRoute_extra a b ha hs]
  · refine ⟨method ++ ['\n'], ['\n'], ?_⟩
    simp [requestBlob]

/-- Witness for C9: module name u, extra segment x, method G. -/
theorem claim_c9_path_extra_segments_witness :
    (['u'] : Str) ≠ [] ∧ (∀ c ∈ (['u'] : Str), c ≠ '/') ∧
    dispatchRoute ('/' :: 'm' :: '/' :: (['u'] ++ '/' :: ['x'])) = some ['u'] ∧
    dispatchModel ['G'] ('/' :: 'm' :: '/' :: (['u'] ++ '/' :: ['x'])) []
        (fun _ => none) (fun _ => none) =
      dispatchAfterRoute (fun _ => none) ((applyPipelineM ['u'] []).map (fun mw => mw.2))
        ((fun _ => none) ['u']) ∧
    (∃ u v, requestBlob ['G'] ('/' :: 'm' :: '/' :: (['u'] ++ '/' :: ['x'])) =
      u ++ ('/' :: 'm' :: '/' :: (['u'] ++ '/' :: ['x'])) ++ v) := by
  have h := claim_c9_path_extra_segments ['u'] ['x'] ['G'] [] (fun _ => none)
    (fun _ => none) (by decide) (by decide)
  exact ⟨by decide, by decide, h.1, h.2.1, h.2.2⟩

end Wasi
